import Mathlib

/-!
Verification of the encrypted audit-log subsystem of Metascrubbot.

Shallow embedding of `secure_log_handler.py` (class `SecureLogHandler`) and
`metadata_logger.py` (class `MetadataLogger`).

Modelling conventions:
- File bytes are modelled by `FileData`: `raw` holds arbitrary UTF-8 text,
  `csv` holds CSV text abstracted to its list of rows (the Python `csv`
  module's serialize/parse round-trip is taken as exact), and `cipher`
  holds a Fernet token.  All modelled byte strings are UTF-8 decodable,
  so the `decode('utf-8')` step of `decrypt_log_file` is the identity.
- The Fernet primitive and PBKDF2HMAC key derivation live in the external
  `cryptography` package, not in this repository; they are modelled from the
  spec as ideal authenticated encryption with an injective deterministic KDF
  (see `deriveKey`, `fernetEncrypt`, `fernetDecrypt`, `tamper`).
- The module-level `CRYPTO_AVAILABLE` flag is passed explicitly as a
  `crypto : Bool` parameter.
- Python exceptions become `Except` values; the distinguishable error
  classes of the spec's taxonomy are the constructors of `CryptoError`.
  Messages printed by `print(...)` on recovered paths are modelled as
  `Warning` values accumulated alongside results.
- `tempfile` temporaries are modelled as in-memory values: the code writes
  a payload to a fresh temp file, hands it to `encrypt_log_file`, and
  unlinks it; the model passes the payload directly.
- `time.sleep(0.1)` is a no-op in the model.
- The `threading.Lock` acquired by `log_operation` around its whole body
  makes each call one atomic state transition; concurrent executions are
  modelled as arbitrary sequential interleavings of those transitions
  (see `runOps`).
-/

/-- One CSV cell as written by `csv.writer.writerow`: free text, a Python
integer rendered with `str`, or the percentage rendered with a `.2f` format
(the numeric value is kept; the decimal formatting is abstracted). -/
inductive Cell where
  | str (s : String)
  | num (n : Int)
  | pct (q : ℚ)
deriving DecidableEq

/-- One CSV row. -/
abbrev Row := List Cell

/-- Modelled from the spec: the key produced by
`base64.urlsafe_b64encode(PBKDF2HMAC(SHA256, length=32,
salt=b'metascrubbotsalt123456', iterations=100000).derive(password))`.
The derivation is deterministic (same password, same fixed salt, same key)
and is idealized as injective (the spec: different password gives an
overwhelmingly likely different key), so a key is represented by the
password it was derived from. -/
structure DerivedKey where
  password : String
deriving DecidableEq

/-- Contents of one file on disk. -/
inductive FileData where
  | raw (s : String)
  | csv (rows : List Row)
  | cipher (key : DerivedKey) (payload : FileData) (intact : Bool)
deriving DecidableEq

/-- The file system: an association list from path to contents. -/
structure FS where
  files : List (String × FileData)
deriving DecidableEq

def FS.read (fs : FS) (p : String) : Option FileData :=
  (fs.files.find? (fun e => e.1 == p)).map (fun e => e.2)

def FS.write (fs : FS) (p : String) (d : FileData) : FS :=
  ⟨(p, d) :: fs.files.filter (fun e => e.1 != p)⟩

/-- The distinguishable failure classes of the spec's error taxonomy for the
Encrypted Store (`secure_log_handler.py` wraps each in a generic `Exception`
whose message keeps the class distinguishable). -/
inductive CryptoError where
  | authFailure
  | cryptoUnavailable
  | ioError
deriving DecidableEq

/-- Modelled from the spec: `SecureLogHandler._get_key_from_password`. -/
def deriveKey (password : String) : DerivedKey := ⟨password⟩

/-- Modelled from the spec: `Fernet(key).encrypt(data)` — authenticated
symmetric encryption producing a token bound to the key, with its
authentication tag intact. -/
def fernetEncrypt (key : DerivedKey) (data : FileData) : FileData :=
  .cipher key data true

/-- Modelled from the spec: `Fernet(key).decrypt(token)` — succeeds exactly
on an intact token produced under the same key; a token under another key,
a tampered token, or non-token bytes raise `InvalidToken`, which
`decrypt_log_file` maps to the "Incorrect password or corrupted file"
failure (`CryptoError.authFailure`). -/
def fernetDecrypt (key : DerivedKey) : FileData → Except CryptoError FileData
  | .cipher k payload true =>
      if k = key then .ok payload else .error .authFailure
  | .cipher _ _ false => .error .authFailure
  | .raw _ => .error .authFailure
  | .csv _ => .error .authFailure

/-- Modelled from the spec: tampering with ciphertext bytes invalidates the
token's authentication tag; tampering with non-token bytes is left abstract
(identity). -/
def tamper : FileData → FileData
  | .cipher k payload _ => .cipher k payload false
  | d => d

/-- `Fernet(key).encrypt` guarded by the `CRYPTO_AVAILABLE` check that both
`encrypt_log_file` and `MetadataLogger`'s callers of it perform. -/
def encryptPayload (crypto : Bool) (key : DerivedKey) (data : FileData) :
    Except CryptoError FileData :=
  if crypto then .ok (fernetEncrypt key data) else .error .cryptoUnavailable

namespace SecureLogHandler

/-- `SecureLogHandler.encrypt_log_file input_file output_file password`:
derive the key, read the whole input file, encrypt, write the whole output
file.  Raises (returns `.error`) if crypto is unavailable or the input file
is missing. -/
def encrypt_log_file (crypto : Bool) (fs : FS) (input_file output_file : String)
    (password : String) : Except CryptoError FS :=
  if crypto = false then .error .cryptoUnavailable
  else
    match fs.read input_file with
    | none => .error .ioError
    | some data => .ok (fs.write output_file (fernetEncrypt (deriveKey password) data))

/-- `SecureLogHandler.decrypt_log_file input_file password`: derive the key,
read the whole encrypted file, decrypt, decode as UTF-8 (identity in the
model).  Raises if crypto is unavailable, the file is missing, or the token
check fails ("Incorrect password or corrupted file"). -/
def decrypt_log_file (crypto : Bool) (fs : FS) (input_file : String)
    (password : String) : Except CryptoError FileData :=
  if crypto = false then .error .cryptoUnavailable
  else
    match fs.read input_file with
    | none => .error .ioError
    | some data => fernetDecrypt (deriveKey password) data

end SecureLogHandler

/-- Warnings printed on recovered failure paths (`print(...)` calls), kept
as values so the theorems can state which warnings a path emits. -/
inductive Warning where
  | cryptoUnavailableAtInit
  | cannotCreateEncryptedLog
  | couldNotDecryptExistingLog
  | errorWritingEncryptedLog
  | errorWritingLogFile
  | noPasswordSkippingEntry
  | errorLoggingOperation
deriving DecidableEq

/-- The state of one `MetadataLogger` instance: `self.log_file`,
`self.encrypt_log`, `self.password` (Python `None` is `none`) and whether
`self.secure_handler` is set.  The `threading.Lock` has no data content. -/
structure MetadataLogger where
  log_file : String
  encrypt_log : Bool
  password : Option String
  has_secure_handler : Bool
deriving DecidableEq

namespace MetadataLogger

/-- `self.headers`: the fixed 20-column schema. -/
def headers : List String :=
  ["Timestamp", "Original File", "New File", "Operation Type",
   "Metadata Type Removed", "Specific Tags Removed", "Original File Size (bytes)",
   "New File Size (bytes)", "Original Metadata Count", "Remaining Metadata Count",
   "Size Reduction (bytes)", "Size Reduction Percentage", "Original Creation Date",
   "Original Modified Date", "Processing Date", "Original File Path",
   "New File Path", "Original EXIF Tags", "Remaining EXIF Tags",
   "Operation Success Status"]

/-- The header row as written by `csv.writer.writerow(self.headers)`. -/
def headersRow : Row := headers.map Cell.str

/-- `MetadataLogger._validate_log_filename`: raises `ValueError` on a null
byte or on a path longer than 250 characters, otherwise returns `True`. -/
def validate_log_filename (filename : String) : Except String Unit :=
  if filename.data.contains '\x00' then
    .error "Invalid log file name: Contains null bytes"
  else if filename.length > 250 then
    .error "File path too long. Maximum allowed is 250 characters."
  else .ok ()

/-- `MetadataLogger._initialize_log_file`.  Plaintext mode: create the file
with just the header row when absent.  Encrypted mode: when absent, build a
header-only temp payload; only when a (truthy, hence non-empty) password was
supplied and the secure handler is set, encrypt it to the real path
(a failure of `encrypt_log_file` is caught and reported as a warning).
When the file exists, nothing happens.  All errors are swallowed. -/
def initializeLogFile (crypto : Bool) (lg : MetadataLogger) (fs : FS) :
    FS × List Warning :=
  if lg.encrypt_log = false then
    match fs.read lg.log_file with
    | none => (fs.write lg.log_file (.csv [headersRow]), [])
    | some _ => (fs, [])
  else
    match fs.read lg.log_file with
    | none =>
      match lg.password with
      | some pw =>
        if pw ≠ "" ∧ lg.has_secure_handler then
          match encryptPayload crypto (deriveKey pw) (.csv [headersRow]) with
          | .ok d => (fs.write lg.log_file d, [])
          | .error _ => (fs, [Warning.cannotCreateEncryptedLog])
        else (fs, [])
      | none => (fs, [])
    | some _ => (fs, [])

/-- `MetadataLogger.__init__`.  Validates the path (a `ValueError` is
re-raised, fatal); constructing `SecureLogHandler` never raises — when
crypto is unavailable it only prints a warning — so the `except` branch
that would force `encrypt_log = False` is unreachable and `encrypt_log`
keeps the requested value; then the log file is initialized. -/
def init (log_file_path : String) (encrypt_log : Bool) (password : Option String)
    (crypto : Bool) (fs : FS) : Except String (MetadataLogger × FS × List Warning) :=
  match validate_log_filename log_file_path with
  | .error e => .error ("Error initializing log file: " ++ e)
  | .ok _ =>
    let w1 : List Warning :=
      if encrypt_log ∧ crypto = false then [Warning.cryptoUnavailableAtInit] else []
    let lg : MetadataLogger :=
      { log_file := log_file_path, encrypt_log := encrypt_log,
        password := password, has_secure_handler := encrypt_log }
    let (fs', w2) := initializeLogFile crypto lg fs
    .ok (lg, fs', w1 ++ w2)

end MetadataLogger

/-- The arguments of one `log_operation` call.  A metadata argument is
`some keys` when the Python value is a `dict` (its key list) and `none`
when it is anything else (`isinstance(…, dict)` fails). -/
structure OpArgs where
  original_file : String
  new_file : String
  metadata_type : String
  removed_tags : List String
  original_metadata : Option (List String)
  current_metadata : Option (List String)
deriving DecidableEq

/-- The environment of one `log_operation` call: what the OS calls made
during the call return.  `origSizeErr` / `newSizeErr` model
`os.path.getsize` raising, `statResult = none` models `os.stat` raising,
`promptResult` is what `getpass`-based `get_password(confirm=True)` yields
(`none` on mismatched confirmation or error), `plainWriteErr` models an
I/O failure of the plaintext append, and `unexpectedErr` models an
unexpected exception in the body outside the inner handlers (reaching the
outermost `except` of `log_operation`). -/
structure Env where
  origExists : Bool
  origSize : Int
  origSizeErr : Bool
  newExists : Bool
  newSize : Int
  newSizeErr : Bool
  statResult : Option (String × String)
  nowTs : String
  procTs : String
  promptResult : Option String
  plainWriteErr : Bool
  unexpectedErr : Bool
deriving DecidableEq

/-- The statistics dict returned by `log_operation`. -/
structure OperationStats where
  original_size : Int
  new_size : Int
  size_reduction : Int
  size_reduction_percentage : ℚ
deriving DecidableEq

/-- The zeroed statistics dict returned on total failure. -/
def zeroStats : OperationStats := ⟨0, 0, 0, 0⟩

namespace MetadataLogger

/-- `original_size = os.path.getsize(f) if os.path.exists(f) else 0`,
with any exception degrading to 0. -/
def sizeOf (exists_ : Bool) (size : Int) (err : Bool) : Int :=
  if err then 0 else if exists_ then size else 0

/-- The size and reduction computations of `log_operation` (lines 207-219):
`size_reduction = original_size - new_size if original_size > new_size
else 0` and `size_reduction_percentage = (size_reduction / original_size)
* 100 if original_size > 0 else 0`. -/
def computeStats (env : Env) : OperationStats :=
  let original_size := sizeOf env.origExists env.origSize env.origSizeErr
  let new_size := sizeOf env.newExists env.newSize env.newSizeErr
  let size_reduction : Int :=
    if original_size > new_size then original_size - new_size else 0
  let size_reduction_percentage : ℚ :=
    if original_size > 0 then ((size_reduction : ℚ) / (original_size : ℚ)) * 100 else 0
  ⟨original_size, new_size, size_reduction, size_reduction_percentage⟩

/-- `os.path.basename`: the component after the last slash. -/
def basename (p : String) : String := (p.splitOn "/").getLastD p

/-- `os.path.abspath`, abstract in the model (the claims depend only on
the value being some string derived from the argument). -/
def abspath (p : String) : String := p

/-- `'; '.join(removed_tags) if removed_tags else "None"`. -/
def joinTags (tags : List String) : String :=
  if tags.isEmpty then "None" else String.intercalate "; " tags

/-- `len(d) if isinstance(d, dict) else 0`. -/
def metaCount (d : Option (List String)) : Int :=
  match d with
  | some keys => keys.length
  | none => 0

/-- `'; '.join(sorted(d.keys())) if isinstance(d, dict) else "Error"`. -/
def sortedKeys (d : Option (List String)) : String :=
  match d with
  | some keys => String.intercalate "; " (keys.insertionSort (· ≤ ·))
  | none => "Error"

/-- The creation/modification timestamp pair, degrading to `"Unknown"`
when `os.stat` raises. -/
def statDates (env : Env) : String × String :=
  match env.statResult with
  | some r => r
  | none => ("Unknown", "Unknown")

/-- The 20-cell `log_entry` list built by `log_operation` (lines 231-252). -/
def mkLogEntry (args : OpArgs) (env : Env) : Row :=
  let s := computeStats env
  [Cell.str env.nowTs,
   Cell.str (basename args.original_file),
   Cell.str (basename args.new_file),
   Cell.str ("Metadata Removal - " ++ args.metadata_type),
   Cell.str args.metadata_type,
   Cell.str (joinTags args.removed_tags),
   Cell.num s.original_size,
   Cell.num s.new_size,
   Cell.num (metaCount args.original_metadata),
   Cell.num (metaCount args.current_metadata),
   Cell.num s.size_reduction,
   Cell.pct s.size_reduction_percentage,
   Cell.str (statDates env).1,
   Cell.str (statDates env).2,
   Cell.str env.procTs,
   Cell.str (abspath args.original_file),
   Cell.str (abspath args.new_file),
   Cell.str (sortedKeys args.original_metadata),
   Cell.str (sortedKeys args.current_metadata),
   Cell.str "Success"]

/-- `csv.writer.writerow` through a file opened in append mode: appends one
row to a CSV file, creating it when absent (non-CSV content at the path is
outside the states the logger produces and is left unchanged). -/
def FSappendRow (fs : FS) (p : String) (r : Row) : FS :=
  match fs.read p with
  | some (.csv rows) => fs.write p (.csv (rows ++ [r]))
  | some _ => fs
  | none => fs.write p (.csv [r])

/-- The same appending on decrypted in-memory content (the code writes the
decrypted text to a temp file and appends the row to that temp file). -/
def appendRowData (d : FileData) (r : Row) : FileData :=
  match d with
  | .csv rows => .csv (rows ++ [r])
  | d => d

/-- `MetadataLogger._append_to_encrypted_log`.  Resolves the password
(prompting when `self.password is None`; a falsy result skips the entry
with a warning and returns normally); when the log file exists, tries to
decrypt it and append the entry to the decrypted content, falling back on
any decryption failure to a fresh header-plus-entry payload with a warning;
when it does not exist, builds the fresh payload directly; finally encrypts
the payload over the log file.  `.error` is the wrapped re-raised
exception ("Error with encrypted logging"), reaching the caller in
`log_operation`; warnings already printed are kept alongside. -/
def appendToEncryptedLog (crypto : Bool) (lg : MetadataLogger) (env : Env)
    (entry : Row) (fs : FS) :
    Except Unit (MetadataLogger × FS) × List Warning :=
  match lg.password with
  | none =>
    match env.promptResult with
    | none => (.ok ({lg with password := none}, fs), [Warning.noPasswordSkippingEntry])
    | some pw =>
      if pw = "" then
        (.ok ({lg with password := some pw}, fs), [Warning.noPasswordSkippingEntry])
      else appendWithPassword ({lg with password := some pw}) pw
  | some pw => appendWithPassword lg pw
where
  appendWithPassword (lg' : MetadataLogger) (pw : String) :
      Except Unit (MetadataLogger × FS) × List Warning :=
    let (temp, w1) :=
      match fs.read lg'.log_file with
      | some _ =>
        match SecureLogHandler.decrypt_log_file crypto fs lg'.log_file pw with
        | .ok content => (appendRowData content entry, ([] : List Warning))
        | .error _ => (FileData.csv [headersRow, entry], [Warning.couldNotDecryptExistingLog])
      | none => (FileData.csv [headersRow, entry], ([] : List Warning))
    match encryptPayload crypto (deriveKey pw) temp with
    | .ok d => (.ok (lg', fs.write lg'.log_file d), w1)
    | .error _ => (.error (), w1)

/-- The body of `log_operation` inside the outermost `try` (while the lock
is held): compute stats, build the entry, and write it — to the encrypted
log when `self.encrypt_log and self.secure_handler`, where any raised
exception is caught with a warning, and otherwise by a plain CSV append,
where an I/O failure is caught with a warning.  `.error` is an unexpected
exception escaping to the outermost `except`. -/
def logOperationBody (crypto : Bool) (lg : MetadataLogger) (args : OpArgs)
    (env : Env) (fs : FS) :
    Except Unit (OperationStats × MetadataLogger × FS) × List Warning :=
  if env.unexpectedErr then (.error (), [])
  else
    let stats := computeStats env
    let entry := mkLogEntry args env
    if lg.encrypt_log ∧ lg.has_secure_handler then
      match appendToEncryptedLog crypto lg env entry fs with
      | (.ok (lg', fs'), ws) => (.ok (stats, lg', fs'), ws)
      | (.error _, ws) => (.ok (stats, lg, fs), ws ++ [Warning.errorWritingEncryptedLog])
    else
      if env.plainWriteErr then (.ok (stats, lg, fs), [Warning.errorWritingLogFile])
      else (.ok (stats, lg, FSappendRow fs lg.log_file entry), [])

/-- `MetadataLogger.log_operation`: the whole body runs under
`self.log_lock` and inside a `try` whose `except` prints a warning and
returns the zeroed statistics dict; the call itself never raises. -/
def log_operation (crypto : Bool) (lg : MetadataLogger) (args : OpArgs)
    (env : Env) (fs : FS) :
    OperationStats × MetadataLogger × FS × List Warning :=
  match logOperationBody crypto lg args env fs with
  | (.ok (stats, lg', fs'), ws) => (stats, lg', fs', ws)
  | (.error _, ws) => (zeroStats, lg, fs, ws ++ [Warning.errorLoggingOperation])

/-- A sequence of `log_operation` calls.  Each call holds the instance lock
for its entire body, so a concurrent execution by any number of threads is
observationally some sequential order of the calls; `runOps` runs one such
order. -/
def runOps (crypto : Bool) (lg : MetadataLogger)
    (calls : List (OpArgs × Env)) (fs : FS) : MetadataLogger × FS :=
  match calls with
  | [] => (lg, fs)
  | (a, e) :: rest =>
    let r := log_operation crypto lg a e fs
    runOps crypto r.2.1 rest r.2.2.1

/-- The content of the log file holding exactly `rows`, in the logger's
mode: for plaintext the CSV text itself, for encrypted mode the Fernet
token over it under the session key (`none` when no key is available). -/
def logPayload (lg : MetadataLogger) (rows : List Row) : Option FileData :=
  if lg.encrypt_log then
    lg.password.map (fun pw => FileData.cipher (deriveKey pw) (.csv rows) true)
  else some (.csv rows)

end MetadataLogger

instance {ε α : Type} [DecidableEq ε] [DecidableEq α] : DecidableEq (Except ε α) :=
  fun a b =>
    match a, b with
    | .ok x, .ok y => decidable_of_iff (x = y) (by simp)
    | .error x, .error y => decidable_of_iff (x = y) (by simp)
    | .ok _, .error _ => isFalse (by simp)
    | .error _, .ok _ => isFalse (by simp)

theorem FS.read_write (fs : FS) (p : String) (d : FileData) :
    (fs.write p d).read p = some d := by
  simp [FS.read, FS.write, List.find?]

namespace SecureLogHandler

/-- Claim C1: for every password `p` and every (UTF-8 decodable) payload
`b`, encrypting a file holding `b` with the key derived from `p` and then
decrypting the result with the key derived from the same `p` returns `b`,
via `encrypt_log_file` followed by `decrypt_log_file` on the same
password. -/
theorem C1_encrypt_then_decrypt_roundtrip (p : String) (b : FileData) (fs : FS)
    (input_file output_file : String) (hin : fs.read input_file = some b) :
    encrypt_log_file true fs input_file output_file p =
      .ok (fs.write output_file (fernetEncrypt (deriveKey p) b)) ∧
    decrypt_log_file true (fs.write output_file (fernetEncrypt (deriveKey p) b))
      output_file p = .ok b := by
  constructor
  · simp [encrypt_log_file, hin]
  · simp [decrypt_log_file, FS.read_write, fernetEncrypt, fernetDecrypt]

/-- Witness for C1 at a concrete input. -/
theorem C1_roundtrip_witness :
    encrypt_log_file true ⟨[("plain.csv", .raw "hello log")]⟩ "plain.csv" "log.enc" "pw" =
      .ok (FS.write ⟨[("plain.csv", .raw "hello log")]⟩ "log.enc"
        (fernetEncrypt (deriveKey "pw") (.raw "hello log"))) ∧
    decrypt_log_file true
      (FS.write ⟨[("plain.csv", .raw "hello log")]⟩ "log.enc"
        (fernetEncrypt (deriveKey "pw") (.raw "hello log"))) "log.enc" "pw" =
      .ok (.raw "hello log") :=
  C1_encrypt_then_decrypt_roundtrip "pw" (.raw "hello log")
    ⟨[("plain.csv", .raw "hello log")]⟩ "plain.csv" "log.enc" rfl

/-- Claim C2: decrypting with the key derived from a different password a
ciphertext produced by `encrypt_log_file`, or decrypting a tampered
ciphertext, fails with the distinguishable "wrong password or corrupted
file" authentication failure and never silently returns corrupted
plaintext. -/
theorem C2_wrong_password_or_tamper_fails (p1 p2 : String) (b : FileData) (fs : FS)
    (input_file output_file : String) (hne : p1 ≠ p2) (hin : fs.read input_file = some b) :
    encrypt_log_file true fs input_file output_file p1 =
      .ok (fs.write output_file (fernetEncrypt (deriveKey p1) b)) ∧
    decrypt_log_file true (fs.write output_file (fernetEncrypt (deriveKey p1) b))
      output_file p2 = .error .authFailure ∧
    decrypt_log_file true (fs.write output_file (tamper (fernetEncrypt (deriveKey p1) b)))
      output_file p1 = .error .authFailure := by
  refine ⟨by simp [encrypt_log_file, hin], ?_, ?_⟩
  · have hk : deriveKey p1 ≠ deriveKey p2 := by simpa [deriveKey] using hne
    simp [decrypt_log_file, FS.read_write, fernetEncrypt, fernetDecrypt, hk]
  · simp [decrypt_log_file, FS.read_write, fernetEncrypt, tamper, fernetDecrypt]

/-- Witness for C2 at a concrete input. -/
theorem C2_wrong_password_witness :
    encrypt_log_file true ⟨[("plain.csv", .raw "secret")]⟩ "plain.csv" "log.enc" "alpha" =
      .ok (FS.write ⟨[("plain.csv", .raw "secret")]⟩ "log.enc"
        (fernetEncrypt (deriveKey "alpha") (.raw "secret"))) ∧
    decrypt_log_file true
      (FS.write ⟨[("plain.csv", .raw "secret")]⟩ "log.enc"
        (fernetEncrypt (deriveKey "alpha") (.raw "secret"))) "log.enc" "beta" =
      .error .authFailure ∧
    decrypt_log_file true
      (FS.write ⟨[("plain.csv", .raw "secret")]⟩ "log.enc"
        (tamper (fernetEncrypt (deriveKey "alpha") (.raw "secret")))) "log.enc" "alpha" =
      .error .authFailure :=
  C2_wrong_password_or_tamper_fails "alpha" "beta" (.raw "secret")
    ⟨[("plain.csv", .raw "secret")]⟩ "plain.csv" "log.enc" (by decide) rfl

end SecureLogHandler

namespace MetadataLogger

theorem validate_error_iff (filename : String) :
    (∃ msg, validate_log_filename filename = .error msg) ↔
      (filename.data.contains '\x00' = true ∨ filename.length > 250) := by
  unfold validate_log_filename
  by_cases h0 : '\x00' ∈ filename.data
  · simp [h0]
  · by_cases hl : filename.length > 250
    · simp [h0, hl]
    · simp [h0, hl]

/-- Claim C9: the constructor raises a `ValueError`, fatal to construction,
exactly when the log file path contains a null byte or is longer than 250
characters; any other path passes validation and construction proceeds
(returns `.ok`). -/
theorem C9_construction_validation (path : String) (encrypt : Bool)
    (pwOpt : Option String) (crypto : Bool) (fs : FS) :
    (∃ msg, init path encrypt pwOpt crypto fs = .error msg) ↔
      (path.data.contains '\x00' = true ∨ path.length > 250) := by
  rw [← validate_error_iff]
  unfold init
  cases hv : validate_log_filename path with
  | ok u => simp [hv]
  | error e => simp [hv]

theorem logOperationBody_fst (crypto : Bool) (lg : MetadataLogger) (args : OpArgs)
    (env : Env) (fs : FS) (hnf : env.unexpectedErr = false) :
    ∃ lg' fs' ws,
      logOperationBody crypto lg args env fs = (.ok (computeStats env, lg', fs'), ws) := by
  unfold logOperationBody
  rw [hnf]
  simp only [Bool.false_eq_true, if_false]
  by_cases hmode : lg.encrypt_log ∧ lg.has_secure_handler
  · simp only [hmode, if_true]
    rcases ha : appendToEncryptedLog crypto lg env (mkLogEntry args env) fs with ⟨r, ws⟩
    cases r with
    | ok v => exact ⟨v.1, v.2, ws, by simp⟩
    | error e => exact ⟨lg, fs, ws ++ [Warning.errorWritingEncryptedLog], by simp⟩
  · simp only [hmode, if_false]
    by_cases hw : env.plainWriteErr <;> simp [hw]

theorem log_operation_fst (crypto : Bool) (lg : MetadataLogger) (args : OpArgs)
    (env : Env) (fs : FS) (hnf : env.unexpectedErr = false) :
    (log_operation crypto lg args env fs).1 = computeStats env := by
  obtain ⟨lg', fs', ws, h⟩ := logOperationBody_fst crypto lg args env fs hnf
  simp [log_operation, h]

/-- Claim C5: `log_operation` never raises to its caller for
logging-specific failures: it always returns a statistics dict — the
computed one on every recovered path, and on total failure (an unexpected
exception reaching its outermost handler) exactly the zeroed dict
`{original_size: 0, new_size: 0, size_reduction: 0,
size_reduction_percentage: 0}` after printing a warning, with the file
system untouched. -/
theorem C5_never_raises_best_effort_stats (crypto : Bool) (lg : MetadataLogger)
    (args : OpArgs) (env : Env) (fs : FS) :
    (log_operation crypto lg args env fs).1 =
      (if env.unexpectedErr then zeroStats else computeStats env) ∧
    (env.unexpectedErr = true →
      log_operation crypto lg args env fs =
        (zeroStats, lg, fs, [Warning.errorLoggingOperation])) := by
  by_cases hnf : env.unexpectedErr
  · refine ⟨?_, fun _ => ?_⟩ <;>
      simp [log_operation, logOperationBody, hnf, zeroStats]
  · rw [Bool.not_eq_true] at hnf
    refine ⟨?_, fun h => by rw [h] at hnf; cases hnf⟩
    rw [if_neg (by simp [hnf])]
    exact log_operation_fst crypto lg args env fs hnf

/-- Witness for C5 at a concrete input where the body fails
unexpectedly: the zeroed statistics dict is returned. -/
theorem C5_zero_stats_witness :
    (log_operation true ⟨"log.csv", false, none, false⟩
      ⟨"a/o.jpg", "a/n.jpg", "EXIF", [], some [], some []⟩
      ⟨true, 10, false, true, 4, false, none, "t", "t", none, false, true⟩ ⟨[]⟩).1 =
      (if (⟨true, 10, false, true, 4, false, none, "t", "t", none, false, true⟩ : Env).unexpectedErr
       then zeroStats
       else computeStats ⟨true, 10, false, true, 4, false, none, "t", "t", none, false, true⟩) ∧
    ((⟨true, 10, false, true, 4, false, none, "t", "t", none, false, true⟩ : Env).unexpectedErr = true →
      log_operation true ⟨"log.csv", false, none, false⟩
        ⟨"a/o.jpg", "a/n.jpg", "EXIF", [], some [], some []⟩
        ⟨true, 10, false, true, 4, false, none, "t", "t", none, false, true⟩ ⟨[]⟩ =
        (zeroStats, ⟨"log.csv", false, none, false⟩, ⟨[]⟩, [Warning.errorLoggingOperation])) :=
  C5_never_raises_best_effort_stats true ⟨"log.csv", false, none, false⟩
    ⟨"a/o.jpg", "a/n.jpg", "EXIF", [], some [], some []⟩
    ⟨true, 10, false, true, 4, false, none, "t", "t", none, false, true⟩ ⟨[]⟩

/-- Witness for C9 at a concrete input: a path with a null byte makes
construction raise, a plain path does not. -/
theorem C9_validation_witness :
    ((∃ msg, init "bad\x00log.csv" false none true ⟨[]⟩ = .error msg) ↔
      ("bad\x00log.csv".data.contains '\x00' = true ∨ "bad\x00log.csv".length > 250)) ∧
    ((∃ msg, init "metadata_log.csv" false none true ⟨[]⟩ = .error msg) ↔
      ("metadata_log.csv".data.contains '\x00' = true ∨ "metadata_log.csv".length > 250)) :=
  ⟨C9_construction_validation "bad\x00log.csv" false none true ⟨[]⟩,
   C9_construction_validation "metadata_log.csv" false none true ⟨[]⟩⟩

/-- Claim C8: the returned and logged size reduction equals
`max 0 (original_size - new_size)`, hence is never negative, and the
percentage equals `(size_reduction / original_size) * 100` when
`original_size > 0` and `0` when `original_size = 0` (no division by
zero); the same values are placed in cells 10 and 11 of the log row. -/
theorem C8_size_reduction_floor_and_percentage (crypto : Bool) (lg : MetadataLogger)
    (args : OpArgs) (env : Env) (fs : FS) (hnf : env.unexpectedErr = false) :
    (log_operation crypto lg args env fs).1.size_reduction =
      max 0 ((log_operation crypto lg args env fs).1.original_size -
             (log_operation crypto lg args env fs).1.new_size) ∧
    0 ≤ (log_operation crypto lg args env fs).1.size_reduction ∧
    (log_operation crypto lg args env fs).1.size_reduction_percentage =
      (if 0 < (log_operation crypto lg args env fs).1.original_size then
        ((log_operation crypto lg args env fs).1.size_reduction : ℚ) /
          ((log_operation crypto lg args env fs).1.original_size : ℚ) * 100
       else 0) ∧
    (mkLogEntry args env)[10]? =
      some (.num (log_operation crypto lg args env fs).1.size_reduction) ∧
    (mkLogEntry args env)[11]? =
      some (.pct (log_operation crypto lg args env fs).1.size_reduction_percentage) := by
  rw [log_operation_fst crypto lg args env fs hnf]
  unfold computeStats
  set o := sizeOf env.origExists env.origSize env.origSizeErr with ho
  set n := sizeOf env.newExists env.newSize env.newSizeErr with hn
  refine ⟨?_, ?_, rfl, ?_, ?_⟩
  · by_cases h : o > n
    · simp only [h, if_pos]
      omega
    · simp only [h, if_neg, if_false]
      omega
  · by_cases h : o > n
    · simp [h]
      omega
    · simp [h]
  · simp [mkLogEntry, computeStats, ← ho, ← hn]
  · simp [mkLogEntry, computeStats, ← ho, ← hn]

/-- Witness for C8 at a concrete input (original size 1000, new size 800:
reduction 200, percentage 20). -/
theorem C8_size_reduction_witness :
    (log_operation true ⟨"log.csv", false, none, false⟩
      ⟨"a/o.jpg", "a/n.jpg", "EXIF", [], some [], some []⟩
      ⟨true, 1000, false, true, 800, false, none, "t", "t", none, false, false⟩
      ⟨[]⟩).1.size_reduction =
      max 0 ((log_operation true ⟨"log.csv", false, none, false⟩
        ⟨"a/o.jpg", "a/n.jpg", "EXIF", [], some [], some []⟩
        ⟨true, 1000, false, true, 800, false, none, "t", "t", none, false, false⟩
        ⟨[]⟩).1.original_size -
       (log_operation true ⟨"log.csv", false, none, false⟩
        ⟨"a/o.jpg", "a/n.jpg", "EXIF", [], some [], some []⟩
        ⟨true, 1000, false, true, 800, false, none, "t", "t", none, false, false⟩
        ⟨[]⟩).1.new_size) ∧
    0 ≤ (log_operation true ⟨"log.csv", false, none, false⟩
      ⟨"a/o.jpg", "a/n.jpg", "EXIF", [], some [], some []⟩
      ⟨true, 1000, false, true, 800, false, none, "t", "t", none, false, false⟩
      ⟨[]⟩).1.size_reduction ∧
    (log_operation true ⟨"log.csv", false, none, false⟩
      ⟨"a/o.jpg", "a/n.jpg", "EXIF", [], some [], some []⟩
      ⟨true, 1000, false, true, 800, false, none, "t", "t", none, false, false⟩
      ⟨[]⟩).1.size_reduction_percentage =
      (if 0 < (log_operation true ⟨"log.csv", false, none, false⟩
        ⟨"a/o.jpg", "a/n.jpg", "EXIF", [], some [], some []⟩
        ⟨true, 1000, false, true, 800, false, none, "t", "t", none, false, false⟩
        ⟨[]⟩).1.original_size then
        ((log_operation true ⟨"log.csv", false, none, false⟩
          ⟨"a/o.jpg", "a/n.jpg", "EXIF", [], some [], some []⟩
          ⟨true, 1000, false, true, 800, false, none, "t", "t", none, false, false⟩
          ⟨[]⟩).1.size_reduction : ℚ) /
          ((log_operation true ⟨"log.csv", false, none, false⟩
            ⟨"a/o.jpg", "a/n.jpg", "EXIF", [], some [], some []⟩
            ⟨true, 1000, false, true, 800, false, none, "t", "t", none, false, false⟩
            ⟨[]⟩).1.original_size : ℚ) * 100
       else 0) ∧
    (mkLogEntry ⟨"a/o.jpg", "a/n.jpg", "EXIF", [], some [], some []⟩
      ⟨true, 1000, false, true, 800, false, none, "t", "t", none, false, false⟩)[10]? =
      some (.num (log_operation true ⟨"log.csv", false, none, false⟩
        ⟨"a/o.jpg", "a/n.jpg", "EXIF", [], some [], some []⟩
        ⟨true, 1000, false, true, 800, false, none, "t", "t", none, false, false⟩
        ⟨[]⟩).1.size_reduction) ∧
    (mkLogEntry ⟨"a/o.jpg", "a/n.jpg", "EXIF", [], some [], some []⟩
      ⟨true, 1000, false, true, 800, false, none, "t", "t", none, false, false⟩)[11]? =
      some (.pct (log_operation true ⟨"log.csv", false, none, false⟩
        ⟨"a/o.jpg", "a/n.jpg", "EXIF", [], some [], some []⟩
        ⟨true, 1000, false, true, 800, false, none, "t", "t", none, false, false⟩
        ⟨[]⟩).1.size_reduction_percentage) :=
  C8_size_reduction_floor_and_percentage true ⟨"log.csv", false, none, false⟩
    ⟨"a/o.jpg", "a/n.jpg", "EXIF", [], some [], some []⟩
    ⟨true, 1000, false, true, 800, false, none, "t", "t", none, false, false⟩
    ⟨[]⟩ rfl

/-- Claim C10: in encrypted mode with no password supplied at
construction, if the interactive prompt at first append yields no usable
password (mismatched confirmation gives `None`, empty input gives the
falsy `""`), `log_operation` skips writing the row entirely — the file
system is unchanged — emits the skip warning, and still returns the
normally computed statistics. -/
theorem C10_skip_entry_without_password (crypto : Bool) (lg : MetadataLogger)
    (args : OpArgs) (env : Env) (fs : FS)
    (henc : lg.encrypt_log = true) (hsh : lg.has_secure_handler = true)
    (hpw : lg.password = none)
    (hprompt : env.promptResult = none ∨ env.promptResult = some "")
    (hnf : env.unexpectedErr = false) :
    log_operation crypto lg args env fs =
      (computeStats env, {lg with password := env.promptResult}, fs,
       [Warning.noPasswordSkippingEntry]) := by
  unfold log_operation logOperationBody appendToEncryptedLog
  rcases hprompt with h | h <;>
    simp [hnf, henc, hsh, hpw, h]

/-- Witness for C10 at a concrete input (empty password entered). -/
theorem C10_skip_entry_witness :
    log_operation true ⟨"log.enc", true, none, true⟩
      ⟨"a/o.jpg", "a/n.jpg", "EXIF", [], some [], some []⟩
      ⟨true, 10, false, true, 4, false, none, "t", "t", some "", false, false⟩
      ⟨[("log.enc", .raw "blob")]⟩ =
      (computeStats ⟨true, 10, false, true, 4, false, none, "t", "t", some "", false, false⟩,
       ⟨"log.enc", true, some "", true⟩, ⟨[("log.enc", .raw "blob")]⟩,
       [Warning.noPasswordSkippingEntry]) :=
  C10_skip_entry_without_password true ⟨"log.enc", true, none, true⟩
    ⟨"a/o.jpg", "a/n.jpg", "EXIF", [], some [], some []⟩
    ⟨true, 10, false, true, 4, false, none, "t", "t", some "", false, false⟩
    ⟨[("log.enc", .raw "blob")]⟩ rfl rfl rfl (Or.inr rfl) rfl

/-- Claim C4: in encrypted mode, when the target log file exists but
decrypting it at append time fails (wrong password or corrupted bytes),
`log_operation` does not merge with prior content: it writes a brand-new
encrypted file holding only the header row plus the new row, emits the
warning, and still returns normally with the computed statistics. -/
theorem C4_decrypt_failure_starts_fresh_log (lg : MetadataLogger) (args : OpArgs)
    (env : Env) (fs : FS) (pw : String) (d : FileData) (e : CryptoError)
    (henc : lg.encrypt_log = true) (hsh : lg.has_secure_handler = true)
    (hpw : lg.password = some pw) (hnf : env.unexpectedErr = false)
    (hd : fs.read lg.log_file = some d)
    (hfail : SecureLogHandler.decrypt_log_file true fs lg.log_file pw = .error e) :
    log_operation true lg args env fs =
      (computeStats env, lg,
       fs.write lg.log_file
         (.cipher (deriveKey pw) (.csv [headersRow, mkLogEntry args env]) true),
       [Warning.couldNotDecryptExistingLog]) := by
  unfold log_operation logOperationBody appendToEncryptedLog
    appendToEncryptedLog.appendWithPassword
  simp [hnf, henc, hsh, hpw, hd, hfail, encryptPayload, fernetEncrypt]

/-- Witness for C4 at a concrete input: the stored token was tampered
with, so decryption fails and a fresh one-entry log is written. -/
theorem C4_decrypt_failure_witness :
    log_operation true ⟨"log.enc", true, some "pw", true⟩
      ⟨"a/o.jpg", "a/n.jpg", "EXIF", [], some [], some []⟩
      ⟨true, 10, false, true, 4, false, none, "t", "t", none, false, false⟩
      ⟨[("log.enc", tamper (fernetEncrypt (deriveKey "pw") (.csv [MetadataLogger.headersRow])))]⟩ =
      (computeStats ⟨true, 10, false, true, 4, false, none, "t", "t", none, false, false⟩,
       ⟨"log.enc", true, some "pw", true⟩,
       FS.write ⟨[("log.enc", tamper (fernetEncrypt (deriveKey "pw") (.csv [MetadataLogger.headersRow])))]⟩
         "log.enc"
         (.cipher (deriveKey "pw")
           (.csv [MetadataLogger.headersRow,
                  mkLogEntry ⟨"a/o.jpg", "a/n.jpg", "EXIF", [], some [], some []⟩
                    ⟨true, 10, false, true, 4, false, none, "t", "t", none, false, false⟩]) true),
       [Warning.couldNotDecryptExistingLog]) :=
  C4_decrypt_failure_starts_fresh_log ⟨"log.enc", true, some "pw", true⟩
    ⟨"a/o.jpg", "a/n.jpg", "EXIF", [], some [], some []⟩
    ⟨true, 10, false, true, 4, false, none, "t", "t", none, false, false⟩
    ⟨[("log.enc", tamper (fernetEncrypt (deriveKey "pw") (.csv [MetadataLogger.headersRow])))]⟩
    "pw" (tamper (fernetEncrypt (deriveKey "pw") (.csv [MetadataLogger.headersRow])))
    .authFailure rfl rfl rfl rfl rfl rfl

theorem log_operation_success_step (lg : MetadataLogger) (args : OpArgs) (env : Env)
    (fs : FS) (rows : List Row) (d : FileData)
    (hsh : lg.has_secure_handler = lg.encrypt_log)
    (hd : lg.logPayload rows = some d)
    (hfs : fs.read lg.log_file = some d)
    (hnf : env.unexpectedErr = false) (hw : env.plainWriteErr = false) :
    ∃ d', lg.logPayload (rows ++ [mkLogEntry args env]) = some d' ∧
      log_operation true lg args env fs =
        (computeStats env, lg, fs.write lg.log_file d', []) := by
  cases henc : lg.encrypt_log with
  | false =>
    rw [henc] at hsh
    have hdv : d = .csv rows := by
      simpa [logPayload, henc] using hd.symm
    subst hdv
    refine ⟨.csv (rows ++ [mkLogEntry args env]), by simp [logPayload, henc], ?_⟩
    unfold log_operation logOperationBody
    simp [hnf, hw, henc, hsh, FSappendRow, hfs]
  | true =>
    rw [henc] at hsh
    cases hpw : lg.password with
    | none => rw [logPayload, if_pos henc, hpw] at hd; cases hd
    | some pw =>
      have hdv : d = .cipher (deriveKey pw) (.csv rows) true := by
        rw [logPayload, if_pos henc, hpw] at hd
        simpa using hd.symm
      subst hdv
      refine ⟨.cipher (deriveKey pw) (.csv (rows ++ [mkLogEntry args env])) true,
        by simp [logPayload, henc, hpw], ?_⟩
      unfold log_operation logOperationBody appendToEncryptedLog
        appendToEncryptedLog.appendWithPassword
      simp [hnf, henc, hsh, hpw, hfs, SecureLogHandler.decrypt_log_file,
        fernetDecrypt, appendRowData, encryptPayload, fernetEncrypt]

theorem runOps_preserves_log (lg : MetadataLogger) (calls : List (OpArgs × Env))
    (fs : FS) (rows : List Row) (d : FileData)
    (hsh : lg.has_secure_handler = lg.encrypt_log)
    (hd : lg.logPayload rows = some d)
    (hfs : fs.read lg.log_file = some d)
    (hok : ∀ c ∈ calls, c.2.unexpectedErr = false ∧ c.2.plainWriteErr = false) :
    (runOps true lg calls fs).1 = lg ∧
    ∃ d', lg.logPayload (rows ++ calls.map (fun c => mkLogEntry c.1 c.2)) = some d' ∧
      ((runOps true lg calls fs).2).read lg.log_file = some d' := by
  induction calls generalizing fs rows d with
  | nil => exact ⟨rfl, d, by simpa using hd, hfs⟩
  | cons c rest ih =>
    obtain ⟨a, e⟩ := c
    obtain ⟨hnf, hw⟩ := hok (a, e) (by simp)
    obtain ⟨d', hd', hstep⟩ :=
      log_operation_success_step lg a e fs rows d hsh hd hfs hnf hw
    have hrun : runOps true lg ((a, e) :: rest) fs =
        runOps true lg rest (fs.write lg.log_file d') := by
      rw [runOps, hstep]
    rw [hrun]
    have hres := ih (fs.write lg.log_file d') (rows ++ [mkLogEntry a e]) d' hd'
      (FS.read_write fs lg.log_file d')
      (fun c hc => hok c (List.mem_cons_of_mem _ hc))
    simpa using hres

/-- Claim C3: after `N` successful `log_operation` calls against a fresh
log (header only), the log file contains exactly `N + 1` CSV rows — the
header plus one data row per call — each with the fixed 20-column count
and order; the per-instance lock makes each call's whole
read-decrypt-append-encrypt-write sequence one atomic transition, so any
thread interleaving is some sequential order of the calls, which `runOps`
ranges over. -/
theorem C3_n_calls_header_plus_n_rows (lg : MetadataLogger)
    (calls : List (OpArgs × Env)) (fs : FS)
    (hsh : lg.has_secure_handler = lg.encrypt_log)
    (hfresh : ∃ d, lg.logPayload [headersRow] = some d ∧ fs.read lg.log_file = some d)
    (hok : ∀ c ∈ calls, c.2.unexpectedErr = false ∧ c.2.plainWriteErr = false) :
    ∃ rows d, lg.logPayload (headersRow :: rows) = some d ∧
      ((runOps true lg calls fs).2).read lg.log_file = some d ∧
      rows.length = calls.length ∧
      (headersRow :: rows).length = calls.length + 1 ∧
      ∀ r ∈ headersRow :: rows, r.length = 20 := by
  obtain ⟨d, hd1, hd2⟩ := hfresh
  obtain ⟨-, d', hd', hread⟩ := runOps_preserves_log lg calls fs [headersRow] d hsh hd1 hd2 hok
  refine ⟨calls.map (fun c => mkLogEntry c.1 c.2), d', by simpa using hd', hread,
    by simp, by simp, ?_⟩
  intro r hr
  rcases List.mem_cons.mp hr with h | h
  · subst h; rfl
  · obtain ⟨c, _, rfl⟩ := List.mem_map.mp h
    rfl

/-- Witness for C3: two successful calls on a fresh encrypted log. -/
theorem C3_two_calls_witness :
    ∃ rows d,
      MetadataLogger.logPayload ⟨"log.enc", true, some "pw", true⟩ (headersRow :: rows) = some d ∧
      ((runOps true ⟨"log.enc", true, some "pw", true⟩
        [(⟨"a/o.jpg", "a/n.jpg", "EXIF", [], some [], some []⟩,
          ⟨true, 10, false, true, 4, false, none, "t", "t", none, false, false⟩),
         (⟨"a/o.jpg", "a/n.jpg", "PDF", ["Author"], some ["Author"], some []⟩,
          ⟨true, 20, false, true, 8, false, none, "t", "t", none, false, false⟩)]
        ⟨[("log.enc", .cipher (deriveKey "pw") (.csv [headersRow]) true)]⟩).2).read "log.enc" =
        some d ∧
      rows.length = 2 ∧
      (headersRow :: rows).length = 2 + 1 ∧
      ∀ r ∈ headersRow :: rows, r.length = 20 :=
  C3_n_calls_header_plus_n_rows ⟨"log.enc", true, some "pw", true⟩
    [(⟨"a/o.jpg", "a/n.jpg", "EXIF", [], some [], some []⟩,
      ⟨true, 10, false, true, 4, false, none, "t", "t", none, false, false⟩),
     (⟨"a/o.jpg", "a/n.jpg", "PDF", ["Author"], some ["Author"], some []⟩,
      ⟨true, 20, false, true, 8, false, none, "t", "t", none, false, false⟩)]
    ⟨[("log.enc", .cipher (deriveKey "pw") (.csv [headersRow]) true)]⟩
    rfl ⟨.cipher (deriveKey "pw") (.csv [headersRow]) true, rfl, rfl⟩
    (by intro c hc
        rcases List.mem_cons.mp hc with h | h
        · subst h; exact ⟨rfl, rfl⟩
        · rcases List.mem_cons.mp h with h' | h'
          · subst h'; exact ⟨rfl, rfl⟩
          · cases h')

theorem validate_ok (filename : String) (h0 : filename.data.contains '\x00' = false)
    (hl : filename.length ≤ 250) : validate_log_filename filename = .ok () := by
  unfold validate_log_filename
  have h0' : ¬ '\x00' ∈ filename.data := by simpa using h0
  simp [h0', show ¬(filename.length > 250) from by omega]

/-- Counterexample to claim C6 as stated: constructing the logger with
encryption requested while the crypto primitive is unavailable does not
force-disable encryption mode — `SecureLogHandler.__init__` only prints a
warning and never raises, so the `except` branch that would set
`encrypt_log = False` is unreachable and `encrypt_log` stays `True`. -/
theorem C6_counterexample_not_force_disabled :
    (MetadataLogger.init "metadata_log.csv.enc" true (some "pw") false ⟨[]⟩).toOption.map
      (fun r => r.1.encrypt_log) = some true := rfl

/-- Claim C6 as amended: when the crypto primitive is unavailable and
encryption is requested (with a password), construction succeeds with a
warning but encryption mode stays enabled; logging does not continue in
plaintext — every append attempt fails with a warning, leaving the log
file unchanged, while the call still returns the computed statistics. -/
theorem C6_amended_crypto_unavailable_warns_and_skips (path pw : String) (fs : FS)
    (args : OpArgs) (env : Env)
    (h0 : path.data.contains '\x00' = false) (hl : path.length ≤ 250)
    (hnf : env.unexpectedErr = false) :
    ∃ lg ws, MetadataLogger.init path true (some pw) false fs = .ok (lg, fs, ws) ∧
      lg.encrypt_log = true ∧ Warning.cryptoUnavailableAtInit ∈ ws ∧
      (log_operation false lg args env fs).1 = computeStats env ∧
      (log_operation false lg args env fs).2.2.1 = fs ∧
      Warning.errorWritingEncryptedLog ∈ (log_operation false lg args env fs).2.2.2 := by
  have hv : validate_log_filename path = .ok () := validate_ok path h0 hl
  have happend :
      (log_operation false (⟨path, true, some pw, true⟩ : MetadataLogger) args env fs).1 =
        computeStats env ∧
      (log_operation false (⟨path, true, some pw, true⟩ : MetadataLogger) args env fs).2.2.1 =
        fs ∧
      Warning.errorWritingEncryptedLog ∈
        (log_operation false (⟨path, true, some pw, true⟩ : MetadataLogger)
          args env fs).2.2.2 := by
    unfold log_operation logOperationBody appendToEncryptedLog
      appendToEncryptedLog.appendWithPassword
    rcases hr : fs.read path with _ | d
    · simp [hnf, hr, encryptPayload]
    · simp [hnf, hr, encryptPayload, SecureLogHandler.decrypt_log_file]
  refine ⟨⟨path, true, some pw, true⟩, ?_⟩
  unfold MetadataLogger.init initializeLogFile
  rw [hv]
  rcases hr : fs.read path with _ | d
  · by_cases hpw : pw = ""
    · exact ⟨[Warning.cryptoUnavailableAtInit],
        by simp [hr, hpw], rfl, by simp, happend.1, happend.2.1, happend.2.2⟩
    · exact ⟨[Warning.cryptoUnavailableAtInit, Warning.cannotCreateEncryptedLog],
        by simp [hr, hpw, encryptPayload], rfl, by simp,
        happend.1, happend.2.1, happend.2.2⟩
  · exact ⟨[Warning.cryptoUnavailableAtInit],
      by simp [hr], rfl, by simp, happend.1, happend.2.1, happend.2.2⟩

/-- Witness for the amended C6 at a concrete input. -/
theorem C6_amended_witness :
    ∃ lg ws,
      MetadataLogger.init "metadata_log.csv.enc" true (some "pw") false ⟨[]⟩ =
        .ok (lg, ⟨[]⟩, ws) ∧
      lg.encrypt_log = true ∧ Warning.cryptoUnavailableAtInit ∈ ws ∧
      (log_operation false lg
        ⟨"a/o.jpg", "a/n.jpg", "EXIF", [], some [], some []⟩
        ⟨true, 10, false, true, 4, false, none, "t", "t", none, false, false⟩ ⟨[]⟩).1 =
        computeStats ⟨true, 10, false, true, 4, false, none, "t", "t", none, false, false⟩ ∧
      (log_operation false lg
        ⟨"a/o.jpg", "a/n.jpg", "EXIF", [], some [], some []⟩
        ⟨true, 10, false, true, 4, false, none, "t", "t", none, false, false⟩ ⟨[]⟩).2.2.1 =
        ⟨[]⟩ ∧
      Warning.errorWritingEncryptedLog ∈
        (log_operation false lg
          ⟨"a/o.jpg", "a/n.jpg", "EXIF", [], some [], some []⟩
          ⟨true, 10, false, true, 4, false, none, "t", "t", none, false, false⟩
          ⟨[]⟩).2.2.2 :=
  C6_amended_crypto_unavailable_warns_and_skips "metadata_log.csv.enc" "pw" ⟨[]⟩
    ⟨"a/o.jpg", "a/n.jpg", "EXIF", [], some [], some []⟩
    ⟨true, 10, false, true, 4, false, none, "t", "t", none, false, false⟩
    (by decide) (by decide) rfl

/-- Counterexample to claim C7 as stated: in encrypted mode with no
password supplied at construction, an absent target log file is not
created at all — `_initialize_log_file` only encrypts the header-only
payload when `self.password` is truthy, so the file stays absent. -/
theorem C7_counterexample_no_file_without_password :
    (MetadataLogger.init "metadata_log.csv.enc" true none true ⟨[]⟩).toOption.map
      (fun r => (FS.read r.2.1 "metadata_log.csv.enc").isSome) = some false := rfl

/-- Claim C7 as amended: at construction, an absent target file is created
with just the header row in plaintext mode, and in encrypted mode —
assuming the crypto primitive is available — only when a non-empty
password was supplied, by encrypting the header-only payload built in a
temporary location to the real path; with no password the file is not
created (deferred to first append).  An existing target file makes
initialization a no-op in every mode. -/
theorem C7_amended_initialization (path : String) (fs : FS)
    (h0 : path.data.contains '\x00' = false) (hl : path.length ≤ 250) :
    (fs.read path = none →
      ∃ lg ws, MetadataLogger.init path false none true fs =
        .ok (lg, fs.write path (.csv [headersRow]), ws)) ∧
    (∀ pw : String, fs.read path = none → pw ≠ "" →
      ∃ lg ws, MetadataLogger.init path true (some pw) true fs =
        .ok (lg, fs.write path (.cipher (deriveKey pw) (.csv [headersRow]) true), ws)) ∧
    (fs.read path = none →
      ∃ lg ws, MetadataLogger.init path true none true fs = .ok (lg, fs, ws)) ∧
    (∀ (encrypt : Bool) (pwOpt : Option String) (crypto : Bool) (d : FileData),
      fs.read path = some d →
      ∃ lg ws, MetadataLogger.init path encrypt pwOpt crypto fs = .ok (lg, fs, ws)) := by
  have hv : validate_log_filename path = .ok () := validate_ok path h0 hl
  refine ⟨fun hr => ?_, fun pw hr hpw => ?_, fun hr => ?_, fun encrypt pwOpt crypto d hr => ?_⟩
  · exact ⟨⟨path, false, none, false⟩, [],
      by unfold MetadataLogger.init initializeLogFile; rw [hv]; simp [hr]⟩
  · exact ⟨⟨path, true, some pw, true⟩, [],
      by unfold MetadataLogger.init initializeLogFile; rw [hv]
         simp [hr, hpw, encryptPayload, fernetEncrypt]⟩
  · exact ⟨⟨path, true, none, true⟩, [],
      by unfold MetadataLogger.init initializeLogFile; rw [hv]; simp [hr]⟩
  · refine ⟨⟨path, encrypt, pwOpt, encrypt⟩,
      (if encrypt ∧ crypto = false then [Warning.cryptoUnavailableAtInit] else []), ?_⟩
    unfold MetadataLogger.init initializeLogFile
    rw [hv]
    cases encrypt <;> simp [hr]

/-- Witness for the amended C7 at a concrete input (plaintext creation). -/
theorem C7_amended_witness :
    ∃ lg ws, MetadataLogger.init "metadata_log.csv" false none true ⟨[]⟩ =
      .ok (lg, FS.write ⟨[]⟩ "metadata_log.csv" (.csv [headersRow]), ws) :=
  (C7_amended_initialization "metadata_log.csv" ⟨[]⟩ (by decide) (by decide)).1 rfl

end MetadataLogger

